import Mathlib

/-!
Verification of the xcipient drug-search pipeline.

Python strings are modelled as `List Char`.  Each definition below is a
direct translation of the corresponding function in the repository
(`drug.py`, `dailymed_search.py`, `check_availability.py`); the source
function is named in the doc comment of each definition.
-/

namespace Xcipient

/-- Python `str.zfill`: left-fill with ASCII zeros up to width `w`;
a leading sign character stays in front of the inserted padding.
Strings of length at least `w` are returned unchanged. -/
def zfill (s : List Char) (w : Nat) : List Char :=
  if w ≤ s.length then s
  else
    match s with
    | [] => List.replicate w '0'
    | c :: cs =>
      if c = '+' ∨ c = '-' then
        c :: (List.replicate (w - (c :: cs).length) '0' ++ cs)
      else
        List.replicate (w - (c :: cs).length) '0' ++ (c :: cs)

/-- Python `ndc.split("-")` for the one-character separator used by the
sources: maximal dash-free segments, with empty segments kept, and a
single empty segment for the empty string. -/
def splitDash : List Char → List (List Char)
  | [] => [[]]
  | c :: cs =>
    if c = '-' then
      [] :: splitDash cs
    else
      match splitDash cs with
      | [] => [[c]]
      | p :: ps => (c :: p) :: ps

/-- Python `ndc.replace("-", "")`. -/
def removeDashes : List Char → List Char
  | [] => []
  | c :: cs => if c = '-' then removeDashes cs else c :: removeDashes cs

/-- Number of dash characters in a string (Python `ndc.count("-")`). -/
def countDash : List Char → Nat
  | [] => 0
  | c :: cs => (if c = '-' then 1 else 0) + countDash cs

/-- `normalize_ndc` from dailymed_search.py (identical to `_normalize_ndc`
in drug.py): a three-segment dashed code is padded segment-wise to widths
5, 4 and 2; otherwise all dashes are removed and the rest is padded to 11. -/
def normalize_ndc (ndc : List Char) : List Char :=
  if '-' ∈ ndc then
    match splitDash ndc with
    | [a, b, c] => zfill a 5 ++ zfill b 4 ++ zfill c 2
    | _ => zfill (removeDashes ndc) 11
  else zfill (removeDashes ndc) 11

/-- String-typed wrapper of `normalize_ndc`. -/
def normalizeNdcStr (s : String) : String :=
  String.mk (normalize_ndc s.data)

theorem splitDash_ne_nil (s : List Char) : splitDash s ≠ [] := by
  cases s with
  | nil => simp [splitDash]
  | cons c cs =>
    simp only [splitDash]
    split
    · simp
    · cases h : splitDash cs <;> simp

theorem splitDash_length (s : List Char) :
    (splitDash s).length = countDash s + 1 := by
  induction s with
  | nil => simp [splitDash, countDash]
  | cons c cs ih =>
    by_cases hc : c = '-'
    · simp only [splitDash, countDash, if_pos hc, List.length_cons]
      omega
    · simp only [splitDash, countDash, if_neg hc]
      cases h : splitDash cs with
      | nil => exact absurd h (splitDash_ne_nil cs)
      | cons p ps =>
        rw [h] at ih
        simp only [List.length_cons] at ih ⊢
        omega

theorem mem_of_countDash_pos (s : List Char) (h : 0 < countDash s) :
    '-' ∈ s := by
  induction s with
  | nil => simp [countDash] at h
  | cons c cs ih =>
    simp only [countDash] at h
    by_cases hc : c = '-'
    · simp [hc]
    · simp [hc] at h
      exact List.mem_cons_of_mem _ (ih h)

theorem removeDashes_of_not_mem (s : List Char) (h : '-' ∉ s) :
    removeDashes s = s := by
  induction s with
  | nil => rfl
  | cons c cs ih =>
    have hc : c ≠ '-' := by
      intro hc; exact h (hc ▸ List.mem_cons_self c cs)
    have hcs : '-' ∉ cs := fun hm => h (List.mem_cons_of_mem _ hm)
    simp [removeDashes, hc, ih hcs]

theorem zfill_of_length_ge (s : List Char) (w : Nat) (h : w ≤ s.length) :
    zfill s w = s := by
  simp [zfill, h]

theorem zfill_length (s : List Char) (w : Nat) :
    (zfill s w).length = max s.length w := by
  cases s with
  | nil =>
    by_cases h : w ≤ ([] : List Char).length
    · simp at h
      simp [zfill, h]
    · simp only [zfill, if_neg h]
      simp
  | cons c cs =>
    by_cases h : w ≤ (c :: cs).length
    · simp only [zfill]
      rw [if_pos h]
      simp only [List.length_cons] at h ⊢
      omega
    · simp only [zfill, if_neg h]
      simp only [List.length_cons] at h
      by_cases hc : c = '+' ∨ c = '-'
      · rw [if_pos hc]
        simp only [List.length_cons, List.length_append, List.length_replicate]
        omega
      · rw [if_neg hc]
        simp only [List.length_append, List.length_replicate, List.length_cons]
        omega

/-- Claim C1: a code with exactly two dashes splits into three segments
that are left-padded to widths 5, 4 and 2 and concatenated; in particular
the three documented examples normalize as stated. -/
theorem normalize_two_dash_segments :
    (∀ s : List Char, countDash s = 2 →
      ∃ a b c, splitDash s = [a, b, c] ∧
        normalize_ndc s = zfill a 5 ++ zfill b 4 ++ zfill c 2) ∧
    normalizeNdcStr "65862-192-01" = "65862019201" ∧
    normalizeNdcStr "0093-7180-01" = "00093718001" ∧
    normalizeNdcStr "12345-6789-01" = "12345678901" := by
  refine ⟨?_, by decide, by decide, by decide⟩
  intro s h2
  have hmem : '-' ∈ s := mem_of_countDash_pos s (by omega)
  have hlen : (splitDash s).length = 3 := by
    rw [splitDash_length, h2]
  obtain ⟨a, b, c, habc⟩ := List.length_eq_three.mp hlen
  refine ⟨a, b, c, habc, ?_⟩
  simp [normalize_ndc, hmem, habc]

/-- Witness for C1 at the concrete input 65862-192-01. -/
theorem normalize_two_dash_segments_witness :
    ∃ a b c, splitDash ("65862-192-01".data) = [a, b, c] ∧
      normalize_ndc ("65862-192-01".data) = zfill a 5 ++ zfill b 4 ++ zfill c 2 :=
  normalize_two_dash_segments.1 ("65862-192-01".data) (by decide)

/-- Claim C5: normalization is idempotent on already-normalized codes: an
11-character dashless string is returned unchanged, and hence normalizing
twice agrees with normalizing once whenever the first pass yields an
11-character dashless string. -/
theorem normalize_idempotent :
    (∀ s : List Char, '-' ∉ s → s.length = 11 → normalize_ndc s = s) ∧
    (∀ c : List Char, '-' ∉ normalize_ndc c → (normalize_ndc c).length = 11 →
      normalize_ndc (normalize_ndc c) = normalize_ndc c) := by
  have base : ∀ s : List Char, '-' ∉ s → s.length = 11 → normalize_ndc s = s := by
    intro s hmem hlen
    rw [normalize_ndc, if_neg hmem, removeDashes_of_not_mem s hmem,
      zfill_of_length_ge s 11 (by omega)]
  exact ⟨base, fun c hmem hlen => base (normalize_ndc c) hmem hlen⟩

/-- Witness for C5 at the concrete already-normalized code 00093718001. -/
theorem normalize_idempotent_witness :
    normalize_ndc ("00093718001".data) = "00093718001".data :=
  normalize_idempotent.1 ("00093718001".data) (by decide) (by decide)

/-- Counterexample to claim C9: a 12-digit dashless input is not padded or
truncated to 11 characters; its normalization has length 12. -/
theorem normalize_length_not_eleven :
    (normalize_ndc ("123456789012".data)).length ≠ 11 := by decide

/-- Claim C9 (amended): normalization always returns at least 11
characters; dashless inputs longer than 11 characters keep their own
length, so the result is not exactly 11 for every input. -/
theorem normalize_length_ge_eleven :
    ∀ s : List Char, 11 ≤ (normalize_ndc s).length := by
  intro s
  rw [normalize_ndc]
  split
  · split
    · simp only [List.length_append, zfill_length]
      omega
    · rw [zfill_length]; omega
  · rw [zfill_length]; omega

/-- Python `str.lower` restricted to the ASCII range used by the data. -/
def lowerL (s : List Char) : List Char := s.map Char.toLower

/-- Python `str.upper` restricted to the ASCII range used by the data. -/
def upperL (s : List Char) : List Char := s.map Char.toUpper

/-- Case-sensitive prefix test on character lists. -/
def startsWithL : List Char → List Char → Bool
  | [], _ => true
  | _ :: _, [] => false
  | a :: as, b :: bs => (a == b) && startsWithL as bs

/-- Python `needle in hay`: contiguous-substring containment. -/
def isSubstr (needle : List Char) : List Char → Bool
  | [] => startsWithL needle []
  | b :: rest => startsWithL needle (b :: rest) || isSubstr needle rest

/-- A pipeline record: the dictionary shape produced by the ingredients
stage and consumed by the filter, nadac and fmt stages of drug.py.  A
missing nadac_available key behaves as false downstream, so the field is
Bool-valued here. -/
structure DrugRecord where
  setid : List Char
  title : List Char
  manufacturer : List Char
  product_index : Nat
  form : List Char
  strength : List Char
  inactive_ingredients : List (List Char)
  ndcs : List (List Char)
  nadac_available : Bool
deriving DecidableEq

/-- The searchable blob of cmd_filter in drug.py:
`" ".join(drug.get("inactive_ingredients", [])).lower()`. -/
def ingredientBlob (r : DrugRecord) : List Char :=
  lowerL (List.intercalate [' '] r.inactive_ingredients)

/-- `any(e.lower() in ingredients for e in opts.excipient)` of cmd_filter. -/
def hasExcipient (excl : List (List Char)) (r : DrugRecord) : Bool :=
  excl.any (fun e => isSubstr (lowerL e) (ingredientBlob r))

/-- The per-record keep decision of cmd_filter: with --keep (invert) keep
matches, otherwise keep non-matches. -/
def keepsRecord (excl : List (List Char)) (invert : Bool) (r : DrugRecord) : Bool :=
  if invert then hasExcipient excl r else !(hasExcipient excl r)

/-- `cmd_filter` from drug.py: one pass over the input records, appending
exactly the records the keep decision accepts. -/
def cmd_filter (excl : List (List Char)) (invert : Bool) : List DrugRecord → List DrugRecord
  | [] => []
  | d :: ds =>
    if keepsRecord excl invert d then d :: cmd_filter excl invert ds
    else cmd_filter excl invert ds

/-- The annotation step of cmd_nadac in drug.py:
`drug["nadac_available"] = bool(ndcs) and check_ndc(ndcs[0])`, where the
NADAC point lookup check_ndc is the oracle parameter `chk`. -/
def annotateNadac (chk : List Char → Bool) (d : DrugRecord) : DrugRecord :=
  { d with nadac_available := match d.ndcs with
                              | [] => false
                              | n :: _ => chk n }

/-- `cmd_nadac` from drug.py: annotate every record in order and keep the
record unless --filter was given and the record is unavailable. -/
def cmd_nadac (chk : List Char → Bool) (onlyAvail : Bool) : List DrugRecord → List DrugRecord
  | [] => []
  | d :: ds =>
    if !onlyAvail || (annotateNadac chk d).nadac_available then
      annotateNadac chk d :: cmd_nadac chk onlyAvail ds
    else cmd_nadac chk onlyAvail ds

theorem keepsRecord_eq_xor (excl : List (List Char)) (invert : Bool) (r : DrugRecord) :
    keepsRecord excl invert r = Bool.xor invert (!(hasExcipient excl r)) := by
  cases invert <;> cases h : hasExcipient excl r <;> simp [keepsRecord, h]

theorem cmd_filter_eq_filter (excl : List (List Char)) (invert : Bool)
    (drugs : List DrugRecord) :
    cmd_filter excl invert drugs = drugs.filter (keepsRecord excl invert) := by
  induction drugs with
  | nil => rfl
  | cons d ds ih =>
    by_cases h : keepsRecord excl invert d = true
    · simp [cmd_filter, List.filter_cons, h, ih]
    · simp only [Bool.not_eq_true] at h
      simp [cmd_filter, List.filter_cons, h, ih]

/-- Claim C2: the excipient filter keeps a record iff (invert XOR no
excluded name occurs, case-folded, as a substring of the space-joined
ingredient blob): default mode keeps exactly the non-matching records and
invert (--keep) mode keeps exactly the matching ones. -/
theorem excipient_filter_membership :
    ∀ (excl : List (List Char)) (invert : Bool) (drugs : List DrugRecord) (r : DrugRecord),
    r ∈ cmd_filter excl invert drugs ↔
      r ∈ drugs ∧ Bool.xor invert (!(hasExcipient excl r)) = true := by
  intro excl invert drugs r
  rw [cmd_filter_eq_filter, List.mem_filter, keepsRecord_eq_xor]

/-- Claim C6: filter and annotation stages preserve input order: the
excipient filter output is a sublist of its input, the nadac stage output
is a sublist of the order-preserving annotation of its input, and without
--filter the nadac stage is exactly that annotation. -/
theorem stages_preserve_order :
    ∀ (excl : List (List Char)) (invert : Bool) (chk : List Char → Bool)
      (onlyAvail : Bool) (drugs : List DrugRecord),
    List.Sublist (cmd_filter excl invert drugs) drugs ∧
    List.Sublist (cmd_nadac chk onlyAvail drugs) (drugs.map (annotateNadac chk)) ∧
    cmd_nadac chk false drugs = drugs.map (annotateNadac chk) := by
  intro excl invert chk onlyAvail drugs
  refine ⟨?_, ?_, ?_⟩
  · rw [cmd_filter_eq_filter]
    exact List.filter_sublist drugs
  · induction drugs with
    | nil => simp [cmd_nadac]
    | cons d ds ih =>
      by_cases h : (!onlyAvail || (annotateNadac chk d).nadac_available) = true
      · simp only [cmd_nadac, if_pos h, List.map_cons]
        exact List.Sublist.cons₂ _ ih
      · simp only [cmd_nadac, if_neg h, List.map_cons]
        exact List.Sublist.cons _ ih
  · induction drugs with
    | nil => rfl
    | cons d ds ih => simp [cmd_nadac, ih]

/-- Claim C7: the availability flag set by the nadac stage is true iff the
record has at least one NDC and the first one (the convention the code
uses) is present in the pricing dataset; in particular an empty ndcs list
yields not available. -/
theorem nadac_availability_first_ndc :
    ∀ (chk : List Char → Bool) (d : DrugRecord),
    ((annotateNadac chk d).nadac_available = true ↔
      ∃ n rest, d.ndcs = n :: rest ∧ chk n = true) ∧
    (d.ndcs = [] → (annotateNadac chk d).nadac_available = false) := by
  intro chk d
  constructor
  · cases h : d.ndcs with
    | nil => simp [annotateNadac, h]
    | cons n rest =>
      simp only [annotateNadac, h]
      constructor
      · intro hc
        exact ⟨n, rest, rfl, hc⟩
      · rintro ⟨m, ms, hm, hchk⟩
        cases hm
        exact hchk
  · intro h
    simp [annotateNadac, h]

/-- Case-insensitive prefix test (re.IGNORECASE literals). -/
def startsWithCI : List Char → List Char → Bool
  | [], _ => true
  | _ :: _, [] => false
  | a :: as, b :: bs => (Char.toLower a == Char.toLower b) && startsWithCI as bs

/-- Case-insensitive contiguous-substring containment. -/
def containsCI (needle : List Char) : List Char → Bool
  | [] => startsWithCI needle []
  | b :: rest => startsWithCI needle (b :: rest) || containsCI needle rest

/-- Python regex class \s over the ASCII whitespace characters (also the
set stripped by str.strip on the ASCII inputs at hand). -/
def isSpaceCh (c : Char) : Bool :=
  c == ' ' || c == '\t' || c == '\n' || c == '\r' || c == '\x0b' || c == '\x0c'

/-- Python `str.strip()`. -/
def stripWs (s : List Char) : List Char :=
  ((s.dropWhile isSpaceCh).reverse.dropWhile isSpaceCh).reverse

/-- Python `str.rstrip(".")`. -/
def rstripDots (s : List Char) : List Char :=
  (s.reverse.dropWhile (fun c => c == '.')).reverse

/-- Step of `re.sub(r"\s+", " ", text)`: collapse adjacent spaces after
every whitespace character has been mapped to a plain space. -/
def squeezeSpaces : List Char → List Char
  | [] => []
  | [c] => [c]
  | a :: b :: rest =>
    if a == ' ' && b == ' ' then squeezeSpaces (b :: rest)
    else a :: squeezeSpaces (b :: rest)

/-- `re.sub(r"\s+", " ", text)`: each maximal whitespace run becomes one
space. -/
def normWsText (s : List Char) : List Char :=
  squeezeSpaces (s.map (fun c => if isSpaceCh c then ' ' else c))

/-- The name part of pattern 1, hand-compiled from
`.*?<name>([^<]+)</name>` with re.DOTALL and re.IGNORECASE: the lazy gap
selects successive occurrences of the name tag until one is followed by a
nonempty run of non-angle-bracket characters and the closing tag.
Returns the captured group and the rest of the input after the match. -/
def nameScan : List Char → Option (List Char × List Char)
  | [] => none
  | c :: rest =>
    if startsWithCI ("<name>".data) (c :: rest) then
      let t := (c :: rest).drop 6
      let d := t.takeWhile (fun ch => ch != '<')
      let u := t.drop d.length
      if d != [] && startsWithCI ("</name>".data) u then some (d, u.drop 7)
      else nameScan rest
    else nameScan rest

/-- An anchored attempt of pattern 1 of parse_inactive_ingredients_from_xml,
`<ingredient[^>]*classCode="IACT"[^>]*>.*?<name>([^<]+)</name>` with
re.DOTALL and re.IGNORECASE.  The two greedy `[^>]*` gaps around the
classCode literal admit a match exactly when the stretch before the first
closing angle bracket after the opening literal contains the classCode
literal; the rest is handled by nameScan. -/
def iactMatchAt (s : List Char) : Option (List Char × List Char) :=
  if startsWithCI ("<ingredient".data) s then
    let s1 := s.drop 11
    let beforeGt := s1.takeWhile (fun ch => ch != '>')
    match s1.drop beforeGt.length with
    | [] => none
    | _ :: afterGt =>
      if containsCI ("classCode=\"IACT\"".data) beforeGt then nameScan afterGt
      else none
  else none

/-- `re.findall` for pattern 1: scan left to right, restarting after each
match end, advancing one character after a failed attempt.  The fuel is
the input length; every step consumes at least one character. -/
def iactFindAll : Nat → List Char → List (List Char)
  | 0, _ => []
  | _ + 1, [] => []
  | fuel + 1, c :: rest =>
    match iactMatchAt (c :: rest) with
    | some (nm, after) => nm :: iactFindAll fuel after
    | none => iactFindAll fuel rest

/-- All pattern-1 captures of a document, in order. -/
def iactMatches (s : List Char) : List (List Char) :=
  iactFindAll s.length s

/-- The method-1 accumulation loop of parse_inactive_ingredients_from_xml:
strip each capture, keep nonempty ones not yet seen case-insensitively. -/
def collectNames1 (seen : List (List Char)) : List (List Char) → List (List Char)
  | [] => []
  | m :: ms =>
    let nm := stripWs m
    if nm != [] && !(seen.contains (lowerL nm)) then
      nm :: collectNames1 (lowerL nm :: seen) ms
    else collectNames1 seen ms

/-- `ingredients?` of pattern 2: the literal "ingredient" with a greedily
consumed optional plural s (backtracking cannot help because a following
`\s+` can never match at a letter). -/
def matchIngredientWord (s : List Char) : Option (List Char) :=
  if startsWithL ("ingredient".data) s then
    match s.drop 10 with
    | 's' :: u => some u
    | t => some t
  else none

/-- `\s*([^<]+)` at the end of pattern 2: the greedy whitespace run gives
back one character when everything before the next angle bracket is
whitespace, so that the capture stays nonempty; fails when nothing
non-angle-bracket remains. -/
def captureAfterWs (t : List Char) : Option (List Char) :=
  let r := t.takeWhile (fun c => c != '<')
  let w := t.takeWhile isSpaceCh
  if w.length < r.length then some (r.drop w.length)
  else if w != [] then some (r.drop (w.length - 1))
  else none

/-- An anchored attempt of pattern 2 of parse_inactive_ingredients_from_xml,
`[Ii]nactive\s+ingredients?\s+(?:include|:)\s*([^<]+)` (no IGNORECASE):
returns the captured group. -/
def sentenceMatchAt (s : List Char) : Option (List Char) :=
  match s with
  | [] => none
  | c :: rest =>
    if c == 'I' || c == 'i' then
      if startsWithL ("nactive".data) rest then
        let t1 := rest.drop 7
        let ws1 := t1.takeWhile isSpaceCh
        if ws1 != [] then
          match matchIngredientWord (t1.drop ws1.length) with
          | some t3 =>
            let ws2 := t3.takeWhile isSpaceCh
            if ws2 != [] then
              let t4 := t3.drop ws2.length
              match
                (if startsWithL ("include".data) t4 then some (t4.drop 7)
                 else match t4 with
                      | ':' :: u => some u
                      | _ => none) with
              | some t5 => captureAfterWs t5
              | none => none
            else none
          | none => none
        else none
      else none
    else none

/-- `re.search` for pattern 2: first position admitting a match. -/
def sentenceSearch : List Char → Option (List Char)
  | [] => none
  | c :: rest =>
    match sentenceMatchAt (c :: rest) with
    | some g => some g
    | none => sentenceSearch rest

/-- The split of pattern 2 text, `re.split(r",\s*|\s+and\s+", text)`:
a comma plus following whitespace, or a whitespace-surrounded "and",
separates parts; alternatives tried in that order at each position,
leftmost first.  The fuel is the input length; every step consumes at
least one character. -/
def splitSepGo : Nat → List Char → List Char → List (List Char)
  | 0, acc, s => [acc.reverse ++ s]
  | fuel + 1, acc, s =>
    match s with
    | [] => [acc.reverse]
    | c :: rest =>
      if c == ',' then
        acc.reverse :: splitSepGo fuel [] (rest.dropWhile isSpaceCh)
      else if isSpaceCh c then
        let t := (c :: rest).dropWhile isSpaceCh
        if startsWithL ("and".data) t then
          let u := t.drop 3
          let ws2 := u.takeWhile isSpaceCh
          if ws2 != [] then acc.reverse :: splitSepGo fuel [] (u.drop ws2.length)
          else splitSepGo fuel (c :: acc) rest
        else splitSepGo fuel (c :: acc) rest
      else splitSepGo fuel (c :: acc) rest

/-- `re.split(r",\s*|\s+and\s+", text)`. -/
def splitSep (s : List Char) : List (List Char) :=
  splitSepGo s.length [] s

/-- The method-2 accumulation loop of parse_inactive_ingredients_from_xml:
strip each part, keep parts longer than one character not yet seen
case-insensitively. -/
def collectNames2 (seen : List (List Char)) : List (List Char) → List (List Char)
  | [] => []
  | p :: ps =>
    let part := stripWs p
    if part.length > 1 && !(seen.contains (lowerL part)) then
      part :: collectNames2 (lowerL part :: seen) ps
    else collectNames2 seen ps

/-- `parse_inactive_ingredients_from_xml` from dailymed_search.py: the
structured-tag regex first; if it yields nothing, the plain-text sentence
regex.  The result is the ordered list of extracted ingredient names
(the Python dicts hold only the name key). -/
def parse_inactive_ingredients_from_xml (xml : List Char) : List (List Char) :=
  let m1 := collectNames1 [] (iactMatches xml)
  if m1 != [] then m1
  else
    match sentenceSearch xml with
    | none => []
    | some captured =>
      collectNames2 [] (splitSep (rstripDots (stripWs (normWsText captured))))

/-- `get_inactive_ingredients` from dailymed_search.py: the fetched body,
with none modelling a requests.RequestException, which is caught and
converted to the empty list. -/
def get_inactive_ingredients (fetched : Option (List Char)) : List (List Char) :=
  match fetched with
  | none => []
  | some body => parse_inactive_ingredients_from_xml body

/-- Claim C3: on a document with no structured tags containing the
sentence about lactose, corn starch and talc, the fallback extraction
yields exactly those three names; a duplicate occurrence in a second
document is dropped case-insensitively with the first-seen casing kept. -/
theorem fallback_sentence_extraction :
    parse_inactive_ingredients_from_xml
        ("Inactive ingredients include Lactose, Corn Starch and Talc.".data) =
      ["Lactose".data, "Corn Starch".data, "Talc".data] ∧
    parse_inactive_ingredients_from_xml
        ("Inactive ingredients include Lactose, Corn Starch, LACTOSE and Talc.".data) =
      ["Lactose".data, "Corn Starch".data, "Talc".data] := by
  constructor
  · decide
  · decide

/-- An ElementTree element: tag, attribute list, text, children.  This is
the tree `xml.etree.ElementTree.fromstring` hands to `_parse_products` in
drug.py; the parser itself is the external library. -/
inductive XmlEl : Type where
  | el : List Char → List (List Char × List Char) → Option (List Char) → List XmlEl → XmlEl

def XmlEl.tag : XmlEl → List Char
  | .el t _ _ _ => t

def XmlEl.attrs : XmlEl → List (List Char × List Char)
  | .el _ a _ _ => a

def XmlEl.text : XmlEl → Option (List Char)
  | .el _ _ tx _ => tx

def XmlEl.children : XmlEl → List XmlEl
  | .el _ _ _ cs => cs

/-- ElementTree spells a namespaced tag as the URI in braces before the
local name; drug.py builds every tag with the v3 namespace. -/
def nsTag (t : List Char) : List Char :=
  ("\x7burn:hl7-org:v3\x7d".data) ++ t

def tagSubject : List Char := nsTag ("subject".data)

def tagManufacturedProduct : List Char := nsTag ("manufacturedProduct".data)

def tagFormCode : List Char := nsTag ("formCode".data)

def tagNumerator : List Char := nsTag ("numerator".data)

def tagIngredient : List Char := nsTag ("ingredient".data)

def tagCode : List Char := nsTag ("code".data)

def tagName : List Char := nsTag ("name".data)

mutual

/-- `element.iter(tag)`: the element itself and all descendants with the
given tag, in document (preorder) order. -/
def iterTag (t : List Char) : XmlEl → List XmlEl
  | .el tag attrs tx children =>
    (if tag = t then [XmlEl.el tag attrs tx children] else []) ++ iterTagL t children

/-- `iter` over a list of sibling subtrees, in document order. -/
def iterTagL (t : List Char) : List XmlEl → List XmlEl
  | [] => []
  | e :: es => iterTag t e ++ iterTagL t es

end

/-- `element.find(".//tag")`: first matching descendant in document
order, the element itself excluded. -/
def findDesc (t : List Char) (e : XmlEl) : Option XmlEl :=
  (iterTagL t e.children).head?

/-- `element.get(key)`. -/
def getAttr (e : XmlEl) (k : List Char) : Option (List Char) :=
  (e.attrs.find? (fun p => p.1 == k)).map (fun p => p.2)

/-- `element.get(key, default)`. -/
def getAttrD (e : XmlEl) (k d : List Char) : List Char :=
  (getAttr e k).getD d

/-- The strength loop of `_parse_products`: the first numerator whose unit
attribute is nonempty and not the literal 1 and whose value attribute is
nonempty, rendered as value-space-unit; empty when none qualifies. -/
def strengthOf (prod : XmlEl) : List Char :=
  match (iterTag tagNumerator prod).find? (fun n =>
      getAttrD n ("unit".data) [] != [] &&
      getAttrD n ("unit".data) [] != ("1".data) &&
      getAttrD n ("value".data) [] != []) with
  | some n => getAttrD n ("value".data) [] ++ [' '] ++ getAttrD n ("unit".data) []
  | none => []

/-- The ingredient loop of `_parse_products`: ingredients whose classCode
attribute is IACT and whose first descendant name element has truthy
text, collected stripped, de-duplicated case-insensitively with the
first-seen casing kept. -/
def collectIact (seen : List (List Char)) : List XmlEl → List (List Char)
  | [] => []
  | ing :: rest =>
    if getAttr ing ("classCode".data) == some ("IACT".data) then
      match findDesc tagName ing with
      | some nameEl =>
        match nameEl.text with
        | some tx =>
          if tx != [] then
            if !((seen : List (List Char)).contains (lowerL (stripWs tx))) then
              stripWs tx :: collectIact (lowerL (stripWs tx) :: seen) rest
            else collectIact seen rest
          else collectIact seen rest
        | none => collectIact seen rest
      | none => collectIact seen rest
    else collectIact seen rest

/-- The NDC loop of `_parse_products`: code elements of the NDC coding
system whose raw code has exactly two dashes, de-duplicated on the raw
code, normalized. -/
def collectNdcs (seen : List (List Char)) : List XmlEl → List (List Char)
  | [] => []
  | ce :: rest =>
    if getAttr ce ("codeSystem".data) == some ("2.16.840.1.113883.6.69".data) then
      if countDash (getAttrD ce ("code".data) []) == 2 &&
          !((seen : List (List Char)).contains (getAttrD ce ("code".data) [])) then
        normalize_ndc (getAttrD ce ("code".data) []) ::
          collectNdcs (getAttrD ce ("code".data) [] :: seen) rest
      else collectNdcs seen rest
    else collectNdcs seen rest

/-- One per-product dictionary of `_parse_products`. -/
structure SplProduct where
  form : List Char
  strength : List Char
  inactive_ingredients : List (List Char)
  ndcs : List (List Char)
deriving DecidableEq

/-- The body of the subject loop of `_parse_products`: skip subjects with
no manufacturedProduct descendant, otherwise read form, strength,
inactive ingredients (from the product subtree) and NDCs (from the whole
subject subtree). -/
def productOfSubject (subj : XmlEl) : Option SplProduct :=
  match findDesc tagManufacturedProduct subj with
  | none => none
  | some prod =>
    some
      { form := match findDesc tagFormCode prod with
                | some f => getAttrD f ("displayName".data) []
                | none => []
        strength := strengthOf prod
        inactive_ingredients := collectIact [] (iterTag tagIngredient prod)
        ndcs := collectNdcs [] (iterTag tagCode subj) }

/-- `_parse_products` from drug.py on an already-parsed tree: one product
per subject that carries a manufacturedProduct, in document order. -/
def parseProducts (root : XmlEl) : List SplProduct :=
  (iterTag tagSubject root).filterMap productOfSubject

/-- A search-stage record of drug.py before enrichment. -/
structure DrugCandidate where
  setid : List Char
  title : List Char
  manufacturer : List Char
deriving DecidableEq

/-- One output record of the structured branch of cmd_ingredients. -/
def recordOfProduct (d : DrugCandidate) (idx : Nat) (p : SplProduct) : DrugRecord :=
  { setid := d.setid, title := d.title, manufacturer := d.manufacturer,
    product_index := idx, form := p.form, strength := p.strength,
    inactive_ingredients := p.inactive_ingredients, ndcs := p.ndcs,
    nadac_available := false }

/-- The structured branch of cmd_ingredients: one record per product with
its enumeration index as product_index. -/
def explodeProducts (d : DrugCandidate) (ps : List SplProduct) : List DrugRecord :=
  ps.enum.map (fun ip => recordOfProduct d ip.1 ip.2)

theorem productOfSubject_isSome (s : XmlEl)
    (h : (findDesc tagManufacturedProduct s).isSome = true) :
    ∃ p, productOfSubject s = some p := by
  unfold productOfSubject
  cases hf : findDesc tagManufacturedProduct s with
  | none => rw [hf] at h; simp at h
  | some prod => exact ⟨_, rfl⟩

theorem length_filterMap_of_forall_isSome {α β : Type} (f : α → Option β)
    (l : List α) (h : ∀ x ∈ l, ∃ y, f x = some y) :
    (l.filterMap f).length = l.length := by
  induction l with
  | nil => rfl
  | cons a as ih =>
    obtain ⟨y, hy⟩ := h a (List.mem_cons_self a as)
    rw [List.filterMap_cons, hy, List.length_cons, List.length_cons,
      ih (fun x hx => h x (List.mem_cons_of_mem a hx))]

/-- Claim C4: a document with exactly two subject elements, each carrying
a manufactured product, extracts to exactly two product fragments whose
records get product_index 0 and 1 in document order, each keeping its own
form, strength and inactive-ingredient set. -/
theorem two_subject_extraction (root : XmlEl) (d : DrugCandidate)
    (h2 : (iterTag tagSubject root).length = 2)
    (hmp : ∀ s ∈ iterTag tagSubject root,
      (findDesc tagManufacturedProduct s).isSome = true) :
    (parseProducts root).length = 2 ∧
    (explodeProducts d (parseProducts root)).map DrugRecord.product_index = [0, 1] ∧
    (explodeProducts d (parseProducts root)).map DrugRecord.form =
      (parseProducts root).map SplProduct.form ∧
    (explodeProducts d (parseProducts root)).map DrugRecord.strength =
      (parseProducts root).map SplProduct.strength ∧
    (explodeProducts d (parseProducts root)).map DrugRecord.inactive_ingredients =
      (parseProducts root).map SplProduct.inactive_ingredients := by
  have hlen : (parseProducts root).length = 2 := by
    unfold parseProducts
    rw [length_filterMap_of_forall_isSome productOfSubject _
      (fun s hs => productOfSubject_isSome s (hmp s hs))]
    exact h2
  obtain ⟨p1, p2, hps⟩ := List.length_eq_two.mp hlen
  rw [hps]
  refine ⟨by rw [← hps]; exact hlen, ?_, ?_, ?_, ?_⟩ <;>
    simp [explodeProducts, recordOfProduct, List.enum, List.enumFrom]

def sampleFormCodeA : XmlEl :=
  XmlEl.el tagFormCode [(("displayName".data), ("CAPSULE".data))] none []

def sampleFormCodeB : XmlEl :=
  XmlEl.el tagFormCode [(("displayName".data), ("TABLET".data))] none []

def sampleIactA : XmlEl :=
  XmlEl.el tagIngredient [(("classCode".data), ("IACT".data))] none
    [XmlEl.el tagName [] (some ("Lactose".data)) []]

def sampleIactB : XmlEl :=
  XmlEl.el tagIngredient [(("classCode".data), ("IACT".data))] none
    [XmlEl.el tagName [] (some ("Talc".data)) []]

def sampleNumA : XmlEl :=
  XmlEl.el tagNumerator [(("value".data), ("10".data)), (("unit".data), ("mg".data))] none []

def sampleNumB : XmlEl :=
  XmlEl.el tagNumerator [(("value".data), ("20".data)), (("unit".data), ("mg".data))] none []

def sampleSubjA : XmlEl :=
  XmlEl.el tagSubject [] none
    [XmlEl.el tagManufacturedProduct [] none [sampleFormCodeA, sampleNumA, sampleIactA],
     XmlEl.el tagCode
       [(("codeSystem".data), ("2.16.840.1.113883.6.69".data)),
        (("code".data), ("65862-192-01".data))] none []]

def sampleSubjB : XmlEl :=
  XmlEl.el tagSubject [] none
    [XmlEl.el tagManufacturedProduct [] none [sampleFormCodeB, sampleNumB, sampleIactB],
     XmlEl.el tagCode
       [(("codeSystem".data), ("2.16.840.1.113883.6.69".data)),
        (("code".data), ("0093-7180-01".data))] none []]

/-- A well-formed two-product SPL document tree. -/
def sampleRoot : XmlEl :=
  XmlEl.el (nsTag ("document".data)) [] none [sampleSubjA, sampleSubjB]

def sampleCandidate : DrugCandidate :=
  { setid := "sid".data, title := "Sample [Acme]".data, manufacturer := "Acme".data }

/-- Witness for C4 on the concrete two-subject document. -/
theorem two_subject_extraction_witness :
    (parseProducts sampleRoot).length = 2 ∧
    (explodeProducts sampleCandidate (parseProducts sampleRoot)).map
        DrugRecord.product_index = [0, 1] ∧
    (explodeProducts sampleCandidate (parseProducts sampleRoot)).map DrugRecord.form =
      (parseProducts sampleRoot).map SplProduct.form ∧
    (explodeProducts sampleCandidate (parseProducts sampleRoot)).map DrugRecord.strength =
      (parseProducts sampleRoot).map SplProduct.strength ∧
    (explodeProducts sampleCandidate (parseProducts sampleRoot)).map
        DrugRecord.inactive_ingredients =
      (parseProducts sampleRoot).map SplProduct.inactive_ingredients :=
  two_subject_extraction sampleRoot sampleCandidate (by decide) (by decide)

/-- One fetched label document as cmd_ingredients sees it: the response
body text and the result of `ET.fromstring` on it (none models an
ET.ParseError, which `_parse_products` catches and turns into no
products). -/
structure FetchedDoc where
  body : List Char
  tree : Option XmlEl

/-- Keep-first de-duplication on exact equality.  The Python fallback in
cmd_ingredients builds `list(set(...))`, whose iteration order is not
specified; this picks the first-seen order, and the theorems below only
use inputs on which every admissible order agrees. -/
def dedupKeepFirst (seen : List (List Char)) : List (List Char) → List (List Char)
  | [] => []
  | x :: xs =>
    if (seen : List (List Char)).contains x then dedupKeepFirst seen xs
    else x :: dedupKeepFirst (x :: seen) xs

/-- The fallback branch of cmd_ingredients in drug.py:
`list(set(m.strip() for m in re.findall(pattern, resp.text, ...)))`
with the same pattern-1 regex as dailymed_search.py. -/
def drugFallbackIngredients (body : List Char) : List (List Char) :=
  dedupKeepFirst [] ((iactMatches body).map stripWs)

/-- The record built by the fallback branch of cmd_ingredients. -/
def fallbackRecord (d : DrugCandidate) (ings : List (List Char)) : DrugRecord :=
  { setid := d.setid, title := d.title, manufacturer := d.manufacturer,
    product_index := 0, form := [], strength := [],
    inactive_ingredients := ings, ndcs := [], nadac_available := false }

/-- The per-drug loop of cmd_ingredients in drug.py.  `fetch` models
`requests.get` on a setid: none means the call raised, which the outer
try converts to no products while the local variable resp keeps the
response of the last successful request (`prev` here), so the fallback
regex then reads the previous body; on the first record resp is unbound
and the resulting NameError is caught as an empty list. -/
def cmdIngredientsGo (fetch : List Char → Option FetchedDoc) :
    Option FetchedDoc → List DrugCandidate → List DrugRecord
  | _, [] => []
  | prev, d :: ds =>
    match fetch d.setid with
    | some doc =>
      match (match doc.tree with
             | some root => parseProducts root
             | none => []) with
      | [] =>
        fallbackRecord d (drugFallbackIngredients doc.body) ::
          cmdIngredientsGo fetch (some doc) ds
      | p :: ps =>
        explodeProducts d (p :: ps) ++ cmdIngredientsGo fetch (some doc) ds
    | none =>
      fallbackRecord d
          (match prev with
           | some doc => drugFallbackIngredients doc.body
           | none => []) ::
        cmdIngredientsGo fetch prev ds

/-- `cmd_ingredients` from drug.py. -/
def cmdIngredients (fetch : List Char → Option FetchedDoc) (drugs : List DrugCandidate) :
    List DrugRecord :=
  cmdIngredientsGo fetch none drugs

/-- The single structured-tag ingredient document of the C8 scenario. -/
def staleBody : List Char :=
  ("<ingredient classCode=\"IACT\"><name>Lactose</name></ingredient>").data

/-- The tree ET.fromstring yields for staleBody: an un-namespaced
ingredient element, so the structured walk finds no subject. -/
def staleTree : XmlEl :=
  XmlEl.el ("ingredient".data) [(("classCode".data), ("IACT".data))] none
    [XmlEl.el ("name".data) [] (some ("Lactose".data)) []]

def staleCand1 : DrugCandidate :=
  { setid := "sid-1".data, title := "Drug one [A]".data, manufacturer := "A".data }

def staleCand2 : DrugCandidate :=
  { setid := "sid-2".data, title := "Drug two [B]".data, manufacturer := "B".data }

/-- The C8 environment: the first fetch succeeds with staleBody, the
second request raises. -/
def staleFetch : List Char → Option FetchedDoc := fun sid =>
  if sid == ("sid-1".data) then some { body := staleBody, tree := some staleTree }
  else none

/-- Claim C8 fails on cmd_ingredients: when the second fetch raises, the
second record is built from the response of the first request, so it
reports the first document's ingredient Lactose instead of the empty
sequence the claim requires. -/
theorem cmd_ingredients_stale_resp :
    (cmdIngredients staleFetch [staleCand1, staleCand2]).map
        DrugRecord.inactive_ingredients =
      [[("Lactose".data)], [("Lactose".data)]] := by
  decide

/-- `_short_form` from drug.py: keyword abbreviation of a dosage form,
else the first three characters lowercased, else a question mark. -/
def shortForm (form : List Char) : List Char :=
  if isSubstr ("CAPSULE".data) (upperL form) then ("cap".data)
  else if isSubstr ("TABLET".data) (upperL form) then ("tab".data)
  else if isSubstr ("SOLUTION".data) (upperL form) ||
      isSubstr ("LIQUID".data) (upperL form) then ("liq".data)
  else if isSubstr ("INJECTION".data) (upperL form) then ("inj".data)
  else if form != [] then (lowerL form).take 3
  else ("?".data)

/-- The form column of the CSV branch of cmd_fmt: the abbreviated form,
falling back to abbreviating the title when the form is empty. -/
def csvFormField (d : DrugRecord) : List Char :=
  if d.form != [] then shortForm d.form else shortForm d.title

/-- The availability column of the CSV branch of cmd_fmt. -/
def availField (d : DrugRecord) : List Char :=
  if d.nadac_available then ("yes".data) else ("no".data)

/-- Wrap a field in double quotes (no escaping of embedded quotes). -/
def quoteF (s : List Char) : List Char :=
  '"' :: (s ++ ['"'])

/-- `";".join(xs)`. -/
def joinSemi (xs : List (List Char)) : List Char :=
  List.intercalate [';'] xs

/-- One data row of the CSV branch of cmd_fmt in drug.py, following its
f-string: manufacturer, title, form, strength, availability, the first
three NDCs semicolon-joined, the ingredients semicolon-joined; quotes
only around manufacturer, title, NDCs and ingredients. -/
def csvRow (d : DrugRecord) : List Char :=
  quoteF d.manufacturer ++ [','] ++ quoteF d.title ++ [','] ++
    csvFormField d ++ [','] ++ d.strength ++ [','] ++ availField d ++ [','] ++
    quoteF (joinSemi (d.ndcs.take 3)) ++ [','] ++
    quoteF (joinSemi d.inactive_ingredients)

def csvHeader : List Char :=
  ("manufacturer,title,form,strength,available,ndcs,inactive_ingredients").data

/-- The CSV branch of cmd_fmt: header line, then one row per record. -/
def cmdFmtCsv (drugs : List DrugRecord) : List (List Char) :=
  csvHeader :: drugs.map csvRow

/-- Modelled from the claim wording of C10: a row with every one of the
seven fields wrapped in double quotes. -/
def csvRowAllQuoted (d : DrugRecord) : List Char :=
  List.intercalate [',']
    [quoteF d.manufacturer, quoteF d.title, quoteF (csvFormField d),
     quoteF d.strength, quoteF (availField d),
     quoteF (joinSemi (d.ndcs.take 3)), quoteF (joinSemi d.inactive_ingredients)]

/-- The amended row shape: the same column order with quotes only around
manufacturer, title, NDC list and ingredient list. -/
def csvRowQuoteFour (d : DrugRecord) : List Char :=
  List.intercalate [',']
    [quoteF d.manufacturer, quoteF d.title, csvFormField d, d.strength,
     availField d, quoteF (joinSemi (d.ndcs.take 3)),
     quoteF (joinSemi d.inactive_ingredients)]

def sampleCsvRecord : DrugRecord :=
  { setid := "sid".data, title := "Fluoxetine 10 MG [Acme]".data,
    manufacturer := "Acme".data, product_index := 0, form := "TABLET".data,
    strength := "10 mg".data, inactive_ingredients := ["Lactose".data],
    ndcs := ["65862019201".data, "65862019202".data, "65862019203".data,
             "65862019204".data],
    nadac_available := false }

/-- Counterexample to claim C10: on a concrete record the emitted row is
not the all-fields-quoted row, because form, strength and availability
are written without quotes. -/
theorem csv_row_not_all_quoted :
    csvRow sampleCsvRecord ≠ csvRowAllQuoted sampleCsvRecord := by
  decide

/-- Claim C10 (amended): every record becomes a row in the fixed column
order with manufacturer, title, NDC list and ingredient list quoted,
form, strength and availability unquoted, and only the first three NDCs
emitted. -/
theorem csv_rows_quote_four_fields :
    ∀ drugs : List DrugRecord,
    cmdFmtCsv drugs = csvHeader :: drugs.map csvRowQuoteFour := by
  intro drugs
  unfold cmdFmtCsv
  congr 1
  apply List.map_congr_left
  intro d _
  simp [csvRow, csvRowQuoteFour, List.intercalate, List.intersperse]

/-- Witness for C2 at a concrete record and exclusion list. -/
theorem excipient_filter_membership_witness :
    sampleCsvRecord ∈ cmd_filter [("lactose".data)] false [sampleCsvRecord] ↔
      sampleCsvRecord ∈ [sampleCsvRecord] ∧
        Bool.xor false (!(hasExcipient [("lactose".data)] sampleCsvRecord)) = true :=
  excipient_filter_membership ([("lactose".data)]) false [sampleCsvRecord] sampleCsvRecord

/-- Witness for C6 at a concrete stage input. -/
theorem stages_preserve_order_witness :
    List.Sublist (cmd_filter [("lactose".data)] false [sampleCsvRecord]) [sampleCsvRecord] ∧
    List.Sublist (cmd_nadac (fun _ => true) false [sampleCsvRecord])
      ([sampleCsvRecord].map (annotateNadac (fun _ => true))) ∧
    cmd_nadac (fun _ => true) false [sampleCsvRecord] =
      [sampleCsvRecord].map (annotateNadac (fun _ => true)) :=
  stages_preserve_order ([("lactose".data)]) false (fun _ => true) false [sampleCsvRecord]

/-- Witness for C7 at a concrete record and oracle. -/
theorem nadac_availability_first_ndc_witness :
    ((annotateNadac (fun _ => true) sampleCsvRecord).nadac_available = true ↔
      ∃ n rest, sampleCsvRecord.ndcs = n :: rest ∧ (fun _ => true) n = true) ∧
    (sampleCsvRecord.ndcs = [] →
      (annotateNadac (fun _ => true) sampleCsvRecord).nadac_available = false) :=
  nadac_availability_first_ndc (fun _ => true) sampleCsvRecord

/-- Witness for the amended C9 at a concrete one-character input. -/
theorem normalize_length_ge_eleven_witness :
    11 ≤ (normalize_ndc ("1".data)).length :=
  normalize_length_ge_eleven ("1".data)

/-- Witness for the amended C10 at a concrete one-record input. -/
theorem csv_rows_quote_four_fields_witness :
    cmdFmtCsv [sampleCsvRecord] = csvHeader :: [sampleCsvRecord].map csvRowQuoteFour :=
  csv_rows_quote_four_fields [sampleCsvRecord]

end Xcipient
